import Mathlib

/-!
A shallow embedding of the simulation core of
`src/StarfoxPlayerController.jsx` (MushroomFleet/starfox-controller-JSX).

Timestamps and durations are milliseconds, frame deltas (`delta`) are seconds,
both rationals; the JavaScript double arithmetic of the source is modelled by
exact rational arithmetic on the values the claims concern.  React `useState`
setters queue updates that are applied only after the frame callback returns,
so every read inside one `useFrame` body observes the values from the start of
the tick (`useRef` cells update synchronously, but the only ref written and
read in the same tick, `dodgeStartTime`, is written in a branch that excludes
the branch that reads it).  The function `tick` below therefore computes each
new field from the start-of-tick state `s`.
-/

namespace Starfox

/-! ## CONFIG constants (source lines 9-31) -/

def MOVE_SPEED : ℚ := 8
def MOVE_BOUNDS_X : ℚ := 12
def MOVE_BOUNDS_Y : ℚ := 8
def FORWARD_SPEED : ℚ := 15
def BOOST_SPEED : ℚ := 35
def BOOST_DURATION : ℚ := 2000
def BOOST_COOLDOWN : ℚ := 5000
def DODGE_DURATION : ℚ := 600
def DODGE_COOLDOWN : ℚ := 3000
def DODGE_AGILITY_MULT : ℚ := 9 / 5
def FIRE_RATE : ℚ := 100
def PROJECTILE_SPEED : ℚ := 80
def PROJECTILE_LIFETIME : ℚ := 2000
def SHIP_TILT_FACTOR : ℚ := 3 / 10
def RETICLE_DISTANCE : ℚ := 50

/-- The normalized per-tick input snapshot produced by `useInputManager`
(source lines 118-133). -/
structure InputState where
  moveX : ℚ
  moveY : ℚ
  aimX : ℚ
  aimY : ℚ
  boost : Bool
  dodge : Bool
  fire : Bool
deriving DecidableEq

/-- The simulation state owned by `GameController` (source lines 462-481):
the `useState` cells `splineProgress`, `localOffset`, `boostCooldown`,
`boostActive`, `dodgeCooldown`, `isRolling`, `rollProgress`,
`isInvulnerable`, `currentSpeed` and the refs `boostStartTime`,
`dodgeStartTime`, `lastFireTime`.  The projectile list is modelled
separately (`FireState` below), matching the separate `fireProjectile` /
`removeProjectile` callbacks of the source. -/
structure GameState where
  splineProgress : ℚ
  offsetX : ℚ
  offsetY : ℚ
  boostCooldown : ℚ
  boostActive : Bool
  dodgeCooldown : ℚ
  isRolling : Bool
  rollProgress : ℚ
  isInvulnerable : Bool
  currentSpeed : ℚ
  boostStartTime : ℚ
  dodgeStartTime : ℚ
  lastFireTime : ℚ
deriving DecidableEq

/-- Initial state: all `useState(0)` / `useState(false)` defaults, with
`currentSpeed = CONFIG.FORWARD_SPEED` (source line 474) and the refs at 0. -/
def initState : GameState :=
  { splineProgress := 0
    offsetX := 0
    offsetY := 0
    boostCooldown := 0
    boostActive := false
    dodgeCooldown := 0
    isRolling := false
    rollProgress := 0
    isInvulnerable := false
    currentSpeed := FORWARD_SPEED
    boostStartTime := 0
    dodgeStartTime := 0
    lastFireTime := 0 }

/-- `MathUtils.clamp(value, min, max) = Math.max(min, Math.min(max, value))`
(three.js), used at source lines 589-598. -/
def clampQ (v lo hi : ℚ) : ℚ := max lo (min hi v)

/-- The per-cooldown update of source lines 534-539:
`if (cd > 0) setCd(prev => Math.max(0, prev - delta * 1000))`.
`delta` is in seconds, the cooldown in milliseconds. -/
def cooldownStep (cd delta : ℚ) : ℚ :=
  if 0 < cd then max 0 (cd - delta * 1000) else cd

/-- The spline-progress update of source lines 578-584:
`next = prev + (speed * delta) / splineLength; next >= 1 ? 0 : next`. -/
def progressStep (L speed p delta : ℚ) : ℚ :=
  if 1 ≤ p + speed * delta / L then 0 else p + speed * delta / L

/-- Boost activation condition (source line 542):
`input.boost && boostCooldown === 0 && !boostActive`. -/
abbrev bAct (s : GameState) (inp : InputState) : Prop :=
  inp.boost = true ∧ s.boostCooldown = 0 ∧ s.boostActive = false

/-- Boost expiry condition (source lines 547-548):
`boostActive && now - boostStartTime.current > BOOST_DURATION`. -/
abbrev bEnd (s : GameState) (now : ℚ) : Prop :=
  s.boostActive = true ∧ BOOST_DURATION < now - s.boostStartTime

/-- Dodge activation condition (source line 555):
`input.dodge && dodgeCooldown === 0 && !isRolling`. -/
abbrev dAct (s : GameState) (inp : InputState) : Prop :=
  inp.dodge = true ∧ s.dodgeCooldown = 0 ∧ s.isRolling = false

/-- Roll progress (source lines 563-564):
`Math.min((now - dodgeStartTime.current) / DODGE_DURATION, 1)`. -/
def rollP (s : GameState) (now : ℚ) : ℚ :=
  min ((now - s.dodgeStartTime) / DODGE_DURATION) 1

/-- Roll completion condition (source lines 562-567): the update block is
guarded by the (start-of-tick) `isRolling` and ends when `progress >= 1`. -/
abbrev rollDone (s : GameState) (now : ℚ) : Prop :=
  s.isRolling = true ∧ 1 ≤ rollP s now

/-- Forward speed of the current tick (source line 575):
`boostActive ? BOOST_SPEED : FORWARD_SPEED` with the start-of-tick flag. -/
def tickSpeed (s : GameState) : ℚ :=
  if s.boostActive then BOOST_SPEED else FORWARD_SPEED

/-- Agility multiplier (source line 587):
`isRolling ? DODGE_AGILITY_MULT : 1` with the start-of-tick flag. -/
def agilityMult (s : GameState) : ℚ :=
  if s.isRolling then DODGE_AGILITY_MULT else 1

/-- One simulation tick: the `useFrame` body of `GameController` (source
lines 530-631) restricted to simulation state, field by field.  `L` is
`spline.getLength()` (source line 579), a per-level positive constant.
The activation conditions `bAct`/`dAct` exclude `bEnd`/`rollDone`
respectively (they require the opposite value of the same start-of-tick
flag), so writing each field as one nested conditional reproduces the
sequential writes of the source exactly.  Firing (source lines 612-614)
operates on the separate `FireState`; the camera, the rotation lerp and the
`onStateUpdate` emission (modelled by `emitState` below) write no
simulation state. -/
def tick (L : ℚ) (s : GameState) (inp : InputState) (now delta : ℚ) : GameState :=
  { boostCooldown := if bEnd s now then BOOST_COOLDOWN else cooldownStep s.boostCooldown delta
    boostActive := if bAct s inp then true else if bEnd s now then false else s.boostActive
    boostStartTime := if bAct s inp then now else s.boostStartTime
    dodgeCooldown := if rollDone s now then DODGE_COOLDOWN else cooldownStep s.dodgeCooldown delta
    isRolling := if dAct s inp then true else if rollDone s now then false else s.isRolling
    isInvulnerable :=
      if dAct s inp then true else if rollDone s now then false else s.isInvulnerable
    dodgeStartTime := if dAct s inp then now else s.dodgeStartTime
    rollProgress := if s.isRolling then rollP s now else if dAct s inp then 0 else s.rollProgress
    currentSpeed := tickSpeed s
    splineProgress := progressStep L (tickSpeed s) s.splineProgress delta
    offsetX :=
      clampQ (s.offsetX + inp.moveX * MOVE_SPEED * delta * agilityMult s)
        (-MOVE_BOUNDS_X) MOVE_BOUNDS_X
    offsetY :=
      clampQ (s.offsetY + inp.moveY * MOVE_SPEED * delta * agilityMult s)
        (-MOVE_BOUNDS_Y) MOVE_BOUNDS_Y
    lastFireTime := s.lastFireTime }

/-- The states reachable from the initial state by any sequence of frames
with nonnegative frame deltas, for a level spline of length `L`. -/
inductive Reachable (L : ℚ) : GameState → Prop where
  | init : Reachable L initState
  | step (s : GameState) (inp : InputState) (now delta : ℚ) :
      0 ≤ delta → Reachable L s → Reachable L (tick L s inp now delta)

/-- The fraction at which the curve is sampled for the ship anchor position
(source line 485): `Math.min(splineProgress, 0.999)`. -/
def sampleFraction (p : ℚ) : ℚ := min p (999 / 1000)

/-! ## Basic facts about the per-tick update pieces -/

lemma cooldownStep_of_zero (delta : ℚ) : cooldownStep 0 delta = 0 := by
  simp [cooldownStep]

lemma cooldownStep_nonneg (cd delta : ℚ) (h : 0 ≤ cd) : 0 ≤ cooldownStep cd delta := by
  unfold cooldownStep
  split
  · exact le_max_left 0 _
  · exact h

lemma clampQ_mem (v lo hi : ℚ) (h : lo ≤ hi) : lo ≤ clampQ v lo hi ∧ clampQ v lo hi ≤ hi :=
  ⟨le_max_left _ _, max_le h (min_le_left hi v)⟩

lemma tickSpeed_pos (s : GameState) : 0 < tickSpeed s := by
  unfold tickSpeed
  split <;> norm_num [BOOST_SPEED, FORWARD_SPEED]

/-! ## Invariants of reachable states -/

/-- While boost is active its cooldown is 0 (the cooldown only starts when the
boost ends), and the boost cooldown is never negative. -/
lemma boost_inv (L : ℚ) {s : GameState} (h : Reachable L s) :
    (s.boostActive = true → s.boostCooldown = 0) ∧ 0 ≤ s.boostCooldown := by
  induction h with
  | init => simp [initState]
  | step s inp now delta hd hs ih =>
    obtain ⟨ih1, ih2⟩ := ih
    constructor
    · simp only [tick]
      by_cases hA : bAct s inp
      · have hE : ¬ bEnd s now := by
          rintro ⟨hb, -⟩
          rw [hA.2.2] at hb
          simp at hb
        simp only [if_pos hA, if_neg hE]
        rw [hA.2.1]
        exact fun _ => cooldownStep_of_zero delta
      · by_cases hE : bEnd s now
        · simp only [if_neg hA, if_pos hE]
          intro hb
          simp at hb
        · simp only [if_neg hA, if_neg hE]
          intro hB
          rw [ih1 hB]
          exact cooldownStep_of_zero delta
    · simp only [tick]
      by_cases hE : bEnd s now
      · simp only [if_pos hE]
        norm_num [BOOST_COOLDOWN]
      · simp only [if_neg hE]
        exact cooldownStep_nonneg _ _ ih2

/-- While the barrel roll is active the dodge cooldown is 0, and the dodge
cooldown is never negative. -/
lemma dodge_inv (L : ℚ) {s : GameState} (h : Reachable L s) :
    (s.isRolling = true → s.dodgeCooldown = 0) ∧ 0 ≤ s.dodgeCooldown := by
  induction h with
  | init => simp [initState]
  | step s inp now delta hd hs ih =>
    obtain ⟨ih1, ih2⟩ := ih
    constructor
    · simp only [tick]
      by_cases hD : dAct s inp
      · have hR : ¬ rollDone s now := by
          rintro ⟨hb, -⟩
          rw [hD.2.2] at hb
          simp at hb
        simp only [if_pos hD, if_neg hR]
        rw [hD.2.1]
        exact fun _ => cooldownStep_of_zero delta
      · by_cases hR : rollDone s now
        · simp only [if_neg hD, if_pos hR]
          intro hb
          simp at hb
        · simp only [if_neg hD, if_neg hR]
          intro hB
          rw [ih1 hB]
          exact cooldownStep_of_zero delta
    · simp only [tick]
      by_cases hR : rollDone s now
      · simp only [if_pos hR]
        norm_num [DODGE_COOLDOWN]
      · simp only [if_neg hR]
        exact cooldownStep_nonneg _ _ ih2

/-- The invulnerability flag always equals the rolling flag: they are set
together at dodge activation and cleared together at roll completion. -/
lemma invuln_inv (L : ℚ) {s : GameState} (h : Reachable L s) :
    s.isInvulnerable = s.isRolling := by
  induction h with
  | init => rfl
  | step s inp now delta hd hs ih =>
    simp only [tick]
    rw [ih]

/-- The path progress stays in `[0, 1)`. -/
lemma progress_inv (L : ℚ) (hL : 0 < L) {s : GameState} (h : Reachable L s) :
    0 ≤ s.splineProgress ∧ s.splineProgress < 1 := by
  induction h with
  | init => norm_num [initState]
  | step s inp now delta hd hs ih =>
    obtain ⟨ih0, ih1⟩ := ih
    simp only [tick]
    unfold progressStep
    split_ifs with h1
    · norm_num
    · have hnn : 0 ≤ tickSpeed s * delta / L :=
        div_nonneg (mul_nonneg (tickSpeed_pos s).le hd) hL.le
      exact ⟨by linarith, not_le.mp h1⟩

/-! ## Concrete inputs and states used by the witnesses -/

def noInput : InputState := ⟨0, 0, 0, 0, false, false, false⟩

def dodgeInput : InputState := ⟨0, 0, 0, 0, false, true, false⟩

def boostInput : InputState := ⟨0, 0, 0, 0, true, false, false⟩

def moveInput : InputState := ⟨1, 0, 0, 0, false, false, false⟩

/-- State after pressing dodge at `now = 0`: rolling and invulnerable. -/
def sRoll : GameState := tick 1 initState dodgeInput 0 0

/-- State after the roll completes at `now = 600`: dodge cooldown 3000. -/
def sCool : GameState := tick 1 sRoll noInput 600 0

/-- State after pressing boost at `now = 0`: boost active. -/
def sBoost : GameState := tick 1 initState boostInput 0 0

lemma sRoll_eq :
    sRoll = { splineProgress := 0, offsetX := 0, offsetY := 0, boostCooldown := 0,
              boostActive := false, dodgeCooldown := 0, isRolling := true,
              rollProgress := 0, isInvulnerable := true, currentSpeed := 15,
              boostStartTime := 0, dodgeStartTime := 0, lastFireTime := 0 } := by
  norm_num [sRoll, tick, initState, dodgeInput, bAct, bEnd, dAct, rollDone, rollP,
    cooldownStep, progressStep, tickSpeed, agilityMult, clampQ, FORWARD_SPEED,
    BOOST_SPEED, DODGE_DURATION, MOVE_SPEED, MOVE_BOUNDS_X, MOVE_BOUNDS_Y,
    DODGE_AGILITY_MULT, DODGE_COOLDOWN, BOOST_COOLDOWN, BOOST_DURATION,
    min_def, max_def]

lemma sCool_eq :
    sCool = { splineProgress := 0, offsetX := 0, offsetY := 0, boostCooldown := 0,
              boostActive := false, dodgeCooldown := 3000, isRolling := false,
              rollProgress := 1, isInvulnerable := false, currentSpeed := 15,
              boostStartTime := 0, dodgeStartTime := 0, lastFireTime := 0 } := by
  rw [sCool, sRoll_eq]
  norm_num [tick, noInput, bAct, bEnd, dAct, rollDone, rollP,
    cooldownStep, progressStep, tickSpeed, agilityMult, clampQ, FORWARD_SPEED,
    BOOST_SPEED, DODGE_DURATION, MOVE_SPEED, MOVE_BOUNDS_X, MOVE_BOUNDS_Y,
    DODGE_AGILITY_MULT, DODGE_COOLDOWN, BOOST_COOLDOWN, BOOST_DURATION,
    min_def, max_def]

/-! ## Claim C1 -/

/-- Claim C1: in every reachable state of the simulation, the invulnerability
flag equals the rolling (dodge Active episode) flag: `invulnerable` is true
iff the barrel roll is active, and false whenever no dodge is active. -/
theorem dodge_invulnerability_coupled (L : ℚ) (s : GameState) (h : Reachable L s) :
    s.isInvulnerable = s.isRolling :=
  invuln_inv L h

theorem dodge_invulnerability_coupled_witness :
    sRoll.isRolling = true ∧ sRoll.isInvulnerable = sRoll.isRolling :=
  ⟨by decide,
   dodge_invulnerability_coupled 1 sRoll
     (Reachable.step initState dodgeInput 0 0 le_rfl Reachable.init)⟩

/-! ## Claim C2 -/

/-- Claim C2: the boost Idle-to-Active transition fires on a tick iff
`input.boost` is true, the boost cooldown (read at the start of the tick) is
0, and boost is not already active; and a boost press while boost is active
or while the cooldown is positive changes no state (the tick result is the
same as with the boost button released). -/
theorem boost_activation_gate (L : ℚ) (s : GameState) (inp : InputState) (now delta : ℚ) :
    (((tick L s inp now delta).boostActive = true ∧ s.boostActive = false) ↔
      (inp.boost = true ∧ s.boostCooldown = 0 ∧ s.boostActive = false)) ∧
    (s.boostActive = true ∨ 0 < s.boostCooldown →
      tick L s inp now delta = tick L s { inp with boost := false } now delta) := by
  constructor
  · constructor
    · rintro ⟨hT, hF⟩
      by_cases hA : bAct s inp
      · exact ⟨hA.1, hA.2.1, hF⟩
      · exfalso
        have hE : ¬ bEnd s now := by
          rintro ⟨hb, -⟩
          rw [hF] at hb
          simp at hb
        simp only [tick, if_neg hA, if_neg hE] at hT
        rw [hF] at hT
        simp at hT
    · intro hA
      have hA' : bAct s inp := ⟨hA.1, hA.2.1, hA.2.2⟩
      exact ⟨by simp [tick, if_pos hA'], hA.2.2⟩
  · intro hOr
    have hA : ¬ bAct s inp := by
      rcases hOr with hB | hC
      · rintro ⟨-, -, hF⟩
        rw [hB] at hF
        simp at hF
      · rintro ⟨-, hZ, -⟩
        rw [hZ] at hC
        simp at hC
    have hA' : ¬ bAct s { inp with boost := false } := by
      rintro ⟨hBst, -, -⟩
      simp at hBst
    simp [tick, if_neg hA, if_neg hA']

theorem boost_activation_gate_witness :
    sBoost.boostActive = true ∧
    tick 1 sBoost boostInput 5 (1 / 10) =
      tick 1 sBoost { boostInput with boost := false } 5 (1 / 10) :=
  ⟨by decide, (boost_activation_gate 1 sBoost boostInput 5 (1 / 10)).2 (Or.inl (by decide))⟩

/-! ## Claim C3 -/

/-- Claim C3: in reachable states neither cooldown is ever negative; on a
tick with frame delta `delta` (seconds, i.e. `delta * 1000` ms) a positive
cooldown decreases by exactly the elapsed milliseconds clamped at 0; and the
decay is frame-rate independent: two updates of half the delta give the same
remaining cooldown as one update of the full delta. -/
theorem cooldown_decay (L : ℚ) :
    (∀ s : GameState, Reachable L s → 0 ≤ s.boostCooldown ∧ 0 ≤ s.dodgeCooldown) ∧
    (∀ (s : GameState) (inp : InputState) (now delta : ℚ), Reachable L s →
      (0 < s.boostCooldown →
        (tick L s inp now delta).boostCooldown = max 0 (s.boostCooldown - delta * 1000)) ∧
      (0 < s.dodgeCooldown →
        (tick L s inp now delta).dodgeCooldown = max 0 (s.dodgeCooldown - delta * 1000))) ∧
    (∀ cd d : ℚ, 0 ≤ d →
      cooldownStep (cooldownStep cd (d / 2)) (d / 2) = cooldownStep cd d) := by
  refine ⟨fun s h => ⟨(boost_inv L h).2, (dodge_inv L h).2⟩, ?_, ?_⟩
  · intro s inp now delta h
    constructor
    · intro hpos
      have hna : s.boostActive = false := by
        cases hb : s.boostActive
        · rfl
        · rw [(boost_inv L h).1 hb] at hpos
          exact absurd hpos (lt_irrefl 0)
      have hE : ¬ bEnd s now := by
        rintro ⟨hb, -⟩
        rw [hna] at hb
        simp at hb
      simp only [tick, if_neg hE]
      unfold cooldownStep
      rw [if_pos hpos]
    · intro hpos
      have hnr : s.isRolling = false := by
        cases hb : s.isRolling
        · rfl
        · rw [(dodge_inv L h).1 hb] at hpos
          exact absurd hpos (lt_irrefl 0)
      have hR : ¬ rollDone s now := by
        rintro ⟨hb, -⟩
        rw [hnr] at hb
        simp at hb
      simp only [tick, if_neg hR]
      unfold cooldownStep
      rw [if_pos hpos]
  · intro cd d hd
    rcases le_or_lt cd 0 with hc | hc
    · have h1 : cooldownStep cd (d / 2) = cd := by
        unfold cooldownStep
        rw [if_neg (not_lt.mpr hc)]
      have h2 : cooldownStep cd d = cd := by
        unfold cooldownStep
        rw [if_neg (not_lt.mpr hc)]
      rw [h1, h1, h2]
    · rcases le_or_lt (cd - d / 2 * 1000) 0 with hsm | hsm
      · have h1 : cooldownStep cd (d / 2) = 0 := by
          unfold cooldownStep
          rw [if_pos hc]
          exact max_eq_left hsm
        have h3 : cooldownStep cd d = 0 := by
          unfold cooldownStep
          rw [if_pos hc]
          exact max_eq_left (by linarith)
        rw [h1, cooldownStep_of_zero, h3]
      · have h1 : cooldownStep cd (d / 2) = cd - d / 2 * 1000 := by
          unfold cooldownStep
          rw [if_pos hc]
          exact max_eq_right hsm.le
        rw [h1]
        unfold cooldownStep
        rw [if_pos hsm, if_pos hc]
        congr 1
        ring

theorem cooldown_decay_witness :
    0 < sCool.dodgeCooldown ∧
    (tick 1 sCool noInput 700 (1 / 2)).dodgeCooldown =
      max 0 (sCool.dodgeCooldown - (1 / 2) * 1000) :=
  ⟨by rw [sCool_eq]; norm_num,
   ((cooldown_decay 1).2.1 sCool noInput 700 (1 / 2)
      (Reachable.step sRoll noInput 600 0 le_rfl
        (Reachable.step initState dodgeInput 0 0 le_rfl Reachable.init))).2
     (by rw [sCool_eq]; norm_num)⟩

/-! ## Claim C4 -/

/-- Claim C4: after every tick, from any state and for any input whatsoever,
the lateral offset lies within `[-MOVE_BOUNDS.x, MOVE_BOUNDS.x]` on x and
`[-MOVE_BOUNDS.y, MOVE_BOUNDS.y]` on y (each axis clamped independently,
clamping absorbing); and concretely, with `MOVE_SPEED = 8`, `delta = 1`,
`moveX = 1` from offset 0, one tick gives `offsetX = 8` and a second
identical tick gives `offsetX = 12` (clamped, not 16). -/
theorem lateral_offset_bounded :
    (∀ (L : ℚ) (s : GameState) (inp : InputState) (now delta : ℚ),
      -MOVE_BOUNDS_X ≤ (tick L s inp now delta).offsetX ∧
      (tick L s inp now delta).offsetX ≤ MOVE_BOUNDS_X ∧
      -MOVE_BOUNDS_Y ≤ (tick L s inp now delta).offsetY ∧
      (tick L s inp now delta).offsetY ≤ MOVE_BOUNDS_Y) ∧
    (tick 1 initState moveInput 0 1).offsetX = 8 ∧
    (tick 1 (tick 1 initState moveInput 0 1) moveInput 1 1).offsetX = 12 := by
  have hone : (tick 1 initState moveInput 0 1).offsetX = 8 := by
    norm_num [tick, initState, moveInput, agilityMult, clampQ, MOVE_SPEED,
      MOVE_BOUNDS_X, DODGE_AGILITY_MULT, min_def, max_def]
  have hroll : (tick 1 initState moveInput 0 1).isRolling = false := by
    norm_num [tick, initState, moveInput, dAct, rollDone, rollP, DODGE_DURATION,
      min_def, max_def]
  have htwo : (tick 1 (tick 1 initState moveInput 0 1) moveInput 1 1).offsetX = 12 := by
    set s1 := tick 1 initState moveInput 0 1 with hs1
    simp only [tick, agilityMult, clampQ]
    rw [hone, hroll]
    norm_num [moveInput, MOVE_SPEED, MOVE_BOUNDS_X, DODGE_AGILITY_MULT,
      min_def, max_def]
  refine ⟨?_, hone, htwo⟩
  intro L s inp now delta
  have hx : -MOVE_BOUNDS_X ≤ MOVE_BOUNDS_X := by norm_num [MOVE_BOUNDS_X]
  have hy : -MOVE_BOUNDS_Y ≤ MOVE_BOUNDS_Y := by norm_num [MOVE_BOUNDS_Y]
  simp only [tick]
  exact ⟨(clampQ_mem _ _ _ hx).1, (clampQ_mem _ _ _ hx).2,
    (clampQ_mem _ _ _ hy).1, (clampQ_mem _ _ _ hy).2⟩

/-! ## Claim C7 -/

/-- Claim C7: in every reachable state the path progress lies in `[0, 1)`;
each tick adds `tickSpeed * delta / L` and resets to exactly 0 whenever the
sum reaches or exceeds 1; and the curve sample fraction
`min(progress, 0.999)` never exceeds 0.999. -/
theorem path_progress_wraps (L : ℚ) (hL : 0 < L) :
    (∀ s : GameState, Reachable L s → 0 ≤ s.splineProgress ∧ s.splineProgress < 1) ∧
    (∀ (s : GameState) (inp : InputState) (now delta : ℚ),
      (tick L s inp now delta).splineProgress =
        if 1 ≤ s.splineProgress + tickSpeed s * delta / L then 0
        else s.splineProgress + tickSpeed s * delta / L) ∧
    (∀ p : ℚ, sampleFraction p ≤ 999 / 1000) :=
  ⟨fun _ h => progress_inv L hL h, fun _ _ _ _ => rfl, fun _ => min_le_right _ _⟩

theorem path_progress_wraps_witness :
    0 ≤ initState.splineProgress ∧ initState.splineProgress < 1 :=
  (path_progress_wraps 1 (by norm_num)).1 initState Reachable.init

/-! ## Input aggregation (`useInputManager`, source lines 36-136) -/

/-- Raw digital button state: the `keys` cell (source lines 37-40), fed by
the keyboard handlers (lines 56-63) and the mouse buttons (lines 73-79). -/
structure Keys where
  up : Bool
  down : Bool
  left : Bool
  right : Bool
  boost : Bool
  dodge : Bool
  fire : Bool
deriving DecidableEq

/-- Latest polled gamepad sample (source lines 88-103): stick axes and the
mapped trigger/bumper buttons. -/
structure GamepadState where
  leftX : ℚ
  leftY : ℚ
  rightX : ℚ
  rightY : ℚ
  btnBoost : Bool
  btnDodge : Bool
  btnFire : Bool
deriving DecidableEq

/-- The deadzone threshold, `const deadzone = 0.15` (source line 120). -/
def DEADZONE : ℚ := 15 / 100

/-- `applyDeadzone` (source line 122):
`(val) => Math.abs(val) < deadzone ? 0 : val`. -/
def applyDeadzone (v : ℚ) : ℚ := if |v| < DEADZONE then 0 else v

/-- JavaScript `a || b` on numbers: yields `b` exactly when `a` is 0 (the
only falsy value the deadzoned axes can take). -/
def orFalsy (a b : ℚ) : ℚ := if a = 0 then b else a

/-- Digital movement value on x (source line 125):
`keys.left ? -1 : keys.right ? 1 : 0`. -/
def keysMoveX (k : Keys) : ℚ := if k.left then -1 else if k.right then 1 else 0

/-- Digital movement value on y (source line 126):
`keys.up ? 1 : keys.down ? -1 : 0`. -/
def keysMoveY (k : Keys) : ℚ := if k.up then 1 else if k.down then -1 else 0

/-- The input memo (source lines 118-133) merging keyboard/mouse and gamepad.
`mouseX`/`mouseY` are the viewport-relative pointer coordinates in -1..1
computed by the mousemove handler (source lines 66-71); the stick y axes are
negated before the deadzone is applied. -/
def combineInput (k : Keys) (mouseX mouseY : ℚ) (gp : GamepadState) : InputState :=
  { moveX := orFalsy (applyDeadzone gp.leftX) (keysMoveX k)
    moveY := orFalsy (applyDeadzone (-gp.leftY)) (keysMoveY k)
    aimX := orFalsy (applyDeadzone gp.rightX) mouseX
    aimY := orFalsy (applyDeadzone (-gp.rightY)) mouseY
    boost := k.boost || gp.btnBoost
    dodge := k.dodge || gp.btnDodge
    fire := k.fire || gp.btnFire }

/-- The per-axis merge rule exactly as claim C8 words it: the analog value
wins only when its magnitude strictly exceeds the deadzone threshold. -/
def claimedMerge (analog digital : ℚ) : ℚ :=
  if DEADZONE < |analog| then analog else digital

/-- What the code actually does per axis: the analog value wins whenever its
magnitude is at least the deadzone (threshold inclusive). -/
lemma orFalsy_applyDeadzone (a d : ℚ) :
    orFalsy (applyDeadzone a) d = if DEADZONE ≤ |a| then a else d := by
  unfold orFalsy applyDeadzone
  rcases lt_or_le |a| DEADZONE with h | h
  · rw [if_pos h, if_pos rfl, if_neg (not_le.mpr h)]
  · rw [if_neg (not_lt.mpr h), if_pos h]
    split_ifs with hz
    · exfalso
      rw [hz] at h
      norm_num [DEADZONE] at h
    · rfl

def gpEdge : GamepadState := ⟨3 / 20, 0, 0, 0, false, false, false⟩

def keysLeft : Keys := ⟨false, false, true, false, false, false, false⟩

/-! ## Claim C8 -/

/-- Claim C8 counterexample: with the left stick x at exactly the deadzone
threshold 0.15 and the left key held, the code keeps the analog value 0.15
(`Math.abs(val) < deadzone` is false at equality), while the claimed rule
(analog only when magnitude strictly exceeds 0.15) would give the digital
value -1. -/
theorem input_merge_counterexample :
    (combineInput keysLeft 0 0 gpEdge).moveX ≠
      claimedMerge gpEdge.leftX (keysMoveX keysLeft) := by
  have habs : |((3 : ℚ) / 20)| = 3 / 20 := abs_of_nonneg (by norm_num)
  norm_num [combineInput, claimedMerge, orFalsy, applyDeadzone, keysMoveX,
    keysLeft, gpEdge, DEADZONE, habs]

/-- Claim C8 amended: for each axis independently, the normalized input
equals the (sign-normalized) analog stick value when its magnitude is at
least the deadzone threshold 0.15 (threshold inclusive, not strict), and
otherwise equals the digital source (keys give -1/0/+1 for movement, the
pointer gives its -1..1 viewport value for aim); boost, dodge and fire are
each the logical OR of the digital-button and gamepad-button sources. -/
theorem input_merge_precedence (k : Keys) (mouseX mouseY : ℚ) (gp : GamepadState) :
    (combineInput k mouseX mouseY gp).moveX =
      (if DEADZONE ≤ |gp.leftX| then gp.leftX else keysMoveX k) ∧
    (combineInput k mouseX mouseY gp).moveY =
      (if DEADZONE ≤ |gp.leftY| then -gp.leftY else keysMoveY k) ∧
    (combineInput k mouseX mouseY gp).aimX =
      (if DEADZONE ≤ |gp.rightX| then gp.rightX else mouseX) ∧
    (combineInput k mouseX mouseY gp).aimY =
      (if DEADZONE ≤ |gp.rightY| then -gp.rightY else mouseY) ∧
    (combineInput k mouseX mouseY gp).boost = (k.boost || gp.btnBoost) ∧
    (combineInput k mouseX mouseY gp).dodge = (k.dodge || gp.btnDodge) ∧
    (combineInput k mouseX mouseY gp).fire = (k.fire || gp.btnFire) := by
  simp only [combineInput]
  refine ⟨orFalsy_applyDeadzone _ _, ?_, orFalsy_applyDeadzone _ _, ?_, trivial, trivial, trivial⟩
  · rw [orFalsy_applyDeadzone, abs_neg]
  · rw [orFalsy_applyDeadzone, abs_neg]

/-! ## Path construction (`createLevelSpline`, source lines 141-155) -/

/-- A 3-D point with exact coordinates (the control points of the level
spline are integer-valued). -/
structure QVec3 where
  x : ℚ
  y : ℚ
  z : ℚ
deriving DecidableEq

/-- The construction-time failure of the PathProvider contract. -/
inductive InvalidPathError where
  | tooFewPoints
deriving DecidableEq

/-- A built path curve: the ordered control points it interpolates. -/
structure PathCurve where
  points : List QVec3
deriving DecidableEq

/-- Modelled from the spec: the PathProvider contract
`build(points: ordered sequence of at least 2 Vector3) -> PathCurve`, which
fails with `InvalidPathError` when fewer than 2 control points are supplied.
The repository source only contains the caller `createLevelSpline` (source
lines 141-155), which hands a fixed 10-point list to the external three.js
`CatmullRomCurve3` constructor; the validation step itself is not in
`src/`, so it is taken from the words of the spec. -/
def build (points : List QVec3) : Except InvalidPathError PathCurve :=
  if points.length < 2 then Except.error InvalidPathError.tooFewPoints
  else Except.ok { points := points }

/-- The 10 control points of the level spline (source lines 142-153). -/
def levelSplinePoints : List QVec3 :=
  [⟨0, 0, 0⟩, ⟨0, 2, -100⟩, ⟨10, 5, -200⟩, ⟨-5, 3, -300⟩, ⟨0, 8, -400⟩,
   ⟨15, 4, -500⟩, ⟨-10, 6, -600⟩, ⟨0, 2, -700⟩, ⟨5, 10, -800⟩, ⟨0, 5, -1000⟩]

/-- `createLevelSpline` (source lines 141-155): builds the path from the
fixed control-point list. -/
def createLevelSpline : Except InvalidPathError PathCurve :=
  build levelSplinePoints

/-! ## Claim C9 -/

/-- Claim C9: building a path from fewer than 2 control points fails at
construction time with an InvalidPathError, building from at least 2 points
succeeds, and the level spline of the source (10 points) builds
successfully. -/
theorem path_build_validation :
    (∀ points : List QVec3,
      points.length < 2 → build points = Except.error InvalidPathError.tooFewPoints) ∧
    (∀ points : List QVec3,
      2 ≤ points.length → build points = Except.ok { points := points }) ∧
    createLevelSpline = Except.ok { points := levelSplinePoints } := by
  refine ⟨fun p h => ?_, fun p h => ?_, ?_⟩
  · unfold build
    rw [if_pos h]
  · unfold build
    rw [if_neg (not_lt.mpr h)]
  · unfold createLevelSpline build
    rw [if_neg (by decide)]

theorem path_build_validation_witness :
    build [] = Except.error InvalidPathError.tooFewPoints ∧
    build [⟨0, 0, 0⟩, ⟨0, 2, -100⟩] = Except.ok { points := [⟨0, 0, 0⟩, ⟨0, 2, -100⟩] } :=
  ⟨path_build_validation.1 [] (by decide),
   path_build_validation.2.1 [⟨0, 0, 0⟩, ⟨0, 2, -100⟩] (by decide)⟩

/-! ## The per-tick state snapshot (`onStateUpdate`, source lines 622-630) -/

/-- A value stored in the emitted snapshot object. -/
inductive SnapVal where
  | vec (v : QVec3)
  | flag (b : Bool)
  | num (q : ℚ)
deriving DecidableEq

/-- The ship world position (source lines 488-494): the spline anchor point
plus the lateral offset on x and y. -/
def shipPositionOf (anchor : QVec3) (s : GameState) : QVec3 :=
  ⟨anchor.x + s.offsetX, anchor.y + s.offsetY, anchor.z⟩

/-- The snapshot object passed to `onStateUpdate` once per tick (source
lines 622-630), as the ordered key-value pairs of the object literal:
`{ position: shipPosition, isInvulnerable, boostActive, speed: currentSpeed }`. -/
def emitState (anchor : QVec3) (s : GameState) : List (String × SnapVal) :=
  [("position", SnapVal.vec (shipPositionOf anchor s)),
   ("isInvulnerable", SnapVal.flag s.isInvulnerable),
   ("boostActive", SnapVal.flag s.boostActive),
   ("speed", SnapVal.num s.currentSpeed)]

/-- The field names of the emitted snapshot. -/
def snapshotKeys (anchor : QVec3) (s : GameState) : List String :=
  (emitState anchor s).map Prod.fst

/-! ## Claim C10 -/

/-- Claim C10 counterexample: the snapshot emitted on a tick (here from the
initial state) has no orientation field and no projectiles field, so it does
not include all six claimed fields. -/
theorem snapshot_fields_counterexample :
    "orientation" ∉ snapshotKeys ⟨0, 0, 0⟩ initState ∧
    "projectiles" ∉ snapshotKeys ⟨0, 0, 0⟩ initState := by
  constructor <;> decide

/-- Claim C10 amended: the per-tick snapshot emitted to the external state
sink contains exactly the four fields position (ship world position),
isInvulnerable, boostActive and speed; the orientation and the projectile
list are not included in it. -/
theorem snapshot_fields (anchor : QVec3) (s : GameState) :
    snapshotKeys anchor s = ["position", "isInvulnerable", "boostActive", "speed"] ∧
    ("position", SnapVal.vec (shipPositionOf anchor s)) ∈ emitState anchor s ∧
    ("isInvulnerable", SnapVal.flag s.isInvulnerable) ∈ emitState anchor s ∧
    ("boostActive", SnapVal.flag s.boostActive) ∈ emitState anchor s ∧
    ("speed", SnapVal.num s.currentSpeed) ∈ emitState anchor s ∧
    "orientation" ∉ snapshotKeys anchor s ∧
    "projectiles" ∉ snapshotKeys anchor s := by
  have hk : snapshotKeys anchor s = ["position", "isInvulnerable", "boostActive", "speed"] := rfl
  refine ⟨hk, ?_, ?_, ?_, ?_, ?_, ?_⟩
  · simp [emitState]
  · simp [emitState]
  · simp [emitState]
  · simp [emitState]
  · rw [hk]
    decide
  · rw [hk]
    decide

/-! ## Projectiles and firing (source lines 160-183, 505-527)

The geometric data (positions, directions) lives in real 3-vectors because
normalization takes a square root; the timing data stays rational. -/

/-- A 3-D vector with real components (three.js `Vector3`). -/
structure RVec3 where
  x : ℝ
  y : ℝ
  z : ℝ

/-- `new Vector3().subVectors(a, b)`: the componentwise difference `a - b`
(source lines 511-512). -/
def vsub (a b : RVec3) : RVec3 := ⟨a.x - b.x, a.y - b.y, a.z - b.z⟩

/-- Euclidean length (three.js `length()`). -/
noncomputable def vlen (v : RVec3) : ℝ :=
  Real.sqrt (v.x ^ 2 + v.y ^ 2 + v.z ^ 2)

/-- three.js `normalize()`, i.e. `divideScalar(this.length() || 1)`: divide
each component by the length.  Lean division by zero is zero, so the zero
vector maps to itself, exactly what the `|| 1` guard of three.js gives on
the only vector of length 0. -/
noncomputable def vnormalize (v : RVec3) : RVec3 :=
  ⟨v.x / vlen v, v.y / vlen v, v.z / vlen v⟩

/-- A live projectile: the spawned object `{ id, position, direction }`
(source lines 515-519) plus the spawn timestamp held in the component
`startTime` ref (source line 162).  The source id is `now + Math.random()`;
the random tiebreaker is immaterial to every claim and the id is modelled
as the spawn timestamp. -/
structure Projectile where
  id : ℚ
  position : RVec3
  direction : RVec3
  spawnTime : ℚ

/-- The firing state: the `lastFireTime` ref (source line 477) and the
`projectiles` list cell (source line 465). -/
structure FireState where
  lastFireTime : ℚ
  projectiles : List Projectile

/-- `fireProjectile` (source lines 506-522): a no-op while
`now - lastFireTime < FIRE_RATE`; otherwise records `now` in `lastFireTime`
and appends one projectile at the ship position whose direction is the
normalized vector from the ship position to the reticle position. -/
noncomputable def fireProjectile (ship reticle : RVec3) (now : ℚ) (s : FireState) : FireState :=
  if now - s.lastFireTime < FIRE_RATE then s
  else
    { lastFireTime := now
      projectiles :=
        s.projectiles ++
          [{ id := now, position := ship, direction := vnormalize (vsub reticle ship),
             spawnTime := now }] }

/-- The per-tick expiry sweep: each `Projectile` component whose age
strictly exceeds `PROJECTILE_LIFETIME` calls `onExpire(id)` (source lines
171-173) and `removeProjectile` filters it out of the active list (source
lines 525-527); a sweep at time `now` therefore keeps exactly the
projectiles with `now - startTime <= PROJECTILE_LIFETIME`. -/
def expireStep (now : ℚ) (ps : List Projectile) : List Projectile :=
  ps.filter fun p => decide (now - p.spawnTime ≤ PROJECTILE_LIFETIME)

lemma fireProjectile_of_lt (ship reticle : RVec3) (now : ℚ) (s : FireState)
    (h : now - s.lastFireTime < FIRE_RATE) :
    fireProjectile ship reticle now s = s := by
  unfold fireProjectile
  rw [if_pos h]

lemma fireProjectile_of_ge (ship reticle : RVec3) (now : ℚ) (s : FireState)
    (h : FIRE_RATE ≤ now - s.lastFireTime) :
    fireProjectile ship reticle now s =
      { lastFireTime := now
        projectiles :=
          s.projectiles ++
            [{ id := now, position := ship, direction := vnormalize (vsub reticle ship),
               spawnTime := now }] } := by
  unfold fireProjectile
  rw [if_neg (not_lt.mpr h)]

/-- Normalizing a nonzero vector yields a unit vector. -/
lemma vlen_vnormalize (v : RVec3) (h : v ≠ ⟨0, 0, 0⟩) : vlen (vnormalize v) = 1 := by
  have hS : 0 < v.x ^ 2 + v.y ^ 2 + v.z ^ 2 := by
    rcases lt_or_eq_of_le (by positivity : (0 : ℝ) ≤ v.x ^ 2 + v.y ^ 2 + v.z ^ 2) with hpos | heq
    · exact hpos
    · exfalso
      have hx2 : v.x ^ 2 = 0 := by nlinarith [sq_nonneg v.x, sq_nonneg v.y, sq_nonneg v.z]
      have hy2 : v.y ^ 2 = 0 := by nlinarith [sq_nonneg v.x, sq_nonneg v.y, sq_nonneg v.z]
      have hz2 : v.z ^ 2 = 0 := by nlinarith [sq_nonneg v.x, sq_nonneg v.y, sq_nonneg v.z]
      have hx := pow_eq_zero_iff two_ne_zero |>.mp hx2
      have hy := pow_eq_zero_iff two_ne_zero |>.mp hy2
      have hz := pow_eq_zero_iff two_ne_zero |>.mp hz2
      refine h ?_
      obtain ⟨a, b, c⟩ := v
      have ha : a = 0 := hx
      have hb : b = 0 := hy
      have hc : c = 0 := hz
      rw [ha, hb, hc]
  have hl : 0 < vlen v := Real.sqrt_pos.mpr hS
  have hl0 : vlen v ≠ 0 := ne_of_gt hl
  have hl2 : vlen v ^ 2 = v.x ^ 2 + v.y ^ 2 + v.z ^ 2 := Real.sq_sqrt hS.le
  have key : (v.x / vlen v) ^ 2 + (v.y / vlen v) ^ 2 + (v.z / vlen v) ^ 2 = 1 := by
    field_simp
    linarith [hl2]
  have hdef : vlen (vnormalize v) =
      Real.sqrt ((v.x / vlen v) ^ 2 + (v.y / vlen v) ^ 2 + (v.z / vlen v) ^ 2) := rfl
  rw [hdef, key, Real.sqrt_one]

/-! ## Claim C5 -/

/-- Claim C5: a fire attempt at `now` is a no-op (nothing spawned,
`lastFireTime` unchanged) when `now - lastFireTime < FIRE_RATE`; otherwise
exactly one projectile is appended, its direction the unit vector from the
ship position to the reticle position (the normalized difference, which has
length 1 whenever reticle and ship differ), and `lastFireTime` becomes
`now`.  Hence two attempts separated by less than `FIRE_RATE` add at most
one projectile, and two attempts each at least `FIRE_RATE` after the
previous fire add exactly two. -/
theorem fire_rate_gate (ship reticle : RVec3) (now : ℚ) (s : FireState) :
    (now - s.lastFireTime < FIRE_RATE → fireProjectile ship reticle now s = s) ∧
    (FIRE_RATE ≤ now - s.lastFireTime →
      (fireProjectile ship reticle now s).projectiles =
        s.projectiles ++
          [{ id := now, position := ship, direction := vnormalize (vsub reticle ship),
             spawnTime := now }] ∧
      (fireProjectile ship reticle now s).lastFireTime = now) ∧
    (∀ v : RVec3, v ≠ ⟨0, 0, 0⟩ → vlen (vnormalize v) = 1) ∧
    (∀ t1 t2 : ℚ, t2 - t1 < FIRE_RATE →
      (fireProjectile ship reticle t2 (fireProjectile ship reticle t1 s)).projectiles.length ≤
        s.projectiles.length + 1) ∧
    (∀ t1 t2 : ℚ, FIRE_RATE ≤ t1 - s.lastFireTime → FIRE_RATE ≤ t2 - t1 →
      (fireProjectile ship reticle t2 (fireProjectile ship reticle t1 s)).projectiles.length =
        s.projectiles.length + 2) := by
  refine ⟨fireProjectile_of_lt ship reticle now s, ?_, vlen_vnormalize, ?_, ?_⟩
  · intro h
    rw [fireProjectile_of_ge ship reticle now s h]
    exact ⟨rfl, rfl⟩
  · intro t1 t2 ht
    by_cases h1 : t1 - s.lastFireTime < FIRE_RATE
    · rw [fireProjectile_of_lt ship reticle t1 s h1]
      by_cases h2 : t2 - s.lastFireTime < FIRE_RATE
      · rw [fireProjectile_of_lt ship reticle t2 s h2]
        exact Nat.le_succ _
      · rw [fireProjectile_of_ge ship reticle t2 s (not_lt.mp h2)]
        simp
    · rw [fireProjectile_of_ge ship reticle t1 s (not_lt.mp h1)]
      rw [fireProjectile_of_lt ship reticle t2 _ ht]
      simp
  · intro t1 t2 h1 h2
    rw [fireProjectile_of_ge ship reticle t1 s h1]
    rw [fireProjectile_of_ge ship reticle t2 _ h2]
    simp

def vZero : RVec3 := ⟨0, 0, 0⟩

def vAhead : RVec3 := ⟨0, 0, -50⟩

theorem fire_rate_gate_witness :
    (50 : ℚ) - (0 : ℚ) < FIRE_RATE ∧
    fireProjectile vZero vAhead 50 ⟨0, []⟩ = (⟨0, []⟩ : FireState) ∧
    (fireProjectile vZero vAhead 250 (fireProjectile vZero vAhead 100 ⟨0, []⟩)).projectiles.length = 2 :=
  ⟨by norm_num [FIRE_RATE],
   (fire_rate_gate vZero vAhead 50 ⟨0, []⟩).1 (by norm_num [FIRE_RATE]),
   (fire_rate_gate vZero vAhead 50 ⟨0, []⟩).2.2.2.2 100 250 (by norm_num [FIRE_RATE])
     (by norm_num [FIRE_RATE])⟩

/-! ## Claim C6 -/

def pEx : Projectile := ⟨0, vZero, vZero, 0⟩

/-- Claim C6 counterexample: a projectile spawned at T = 0 is still a member
of the active set after the expiry sweep at time exactly
T + PROJECTILE_LIFETIME = 2000 (the source removes only when the age
strictly exceeds the lifetime), while the claim asserts absence at every
sampled time at or beyond that boundary. -/
theorem projectile_expiry_counterexample :
    pEx.spawnTime = 0 ∧ pEx ∈ expireStep (0 + PROJECTILE_LIFETIME) [pEx] := by
  refine ⟨rfl, ?_⟩
  have hkeep : expireStep (0 + PROJECTILE_LIFETIME) [pEx] = [pEx] := by
    unfold expireStep
    norm_num [pEx, PROJECTILE_LIFETIME, List.filter]
  rw [hkeep]
  simp

/-- Claim C6 amended: a projectile spawned at time T is kept by the expiry
sweep at every sampled time `t` with `t` at most `T + PROJECTILE_LIFETIME`
(boundary inclusive) — in particular it survives any sequence of sweeps at
such times — and a sweep at any time `t` strictly beyond
`T + PROJECTILE_LIFETIME` removes it from the active set. -/
theorem projectile_expiry_window :
    (∀ (now : ℚ) (ps : List Projectile) (p : Projectile),
      p ∈ expireStep now ps ↔ p ∈ ps ∧ now - p.spawnTime ≤ PROJECTILE_LIFETIME) ∧
    (∀ (times : List ℚ) (ps : List Projectile) (p : Projectile), p ∈ ps →
      (∀ t ∈ times, t - p.spawnTime ≤ PROJECTILE_LIFETIME) →
      p ∈ times.foldl (fun acc t => expireStep t acc) ps) ∧
    (∀ (now : ℚ) (ps : List Projectile) (p : Projectile),
      PROJECTILE_LIFETIME < now - p.spawnTime → p ∉ expireStep now ps) := by
  have hmem : ∀ (now : ℚ) (ps : List Projectile) (p : Projectile),
      p ∈ expireStep now ps ↔ p ∈ ps ∧ now - p.spawnTime ≤ PROJECTILE_LIFETIME := by
    intro now ps p
    unfold expireStep
    simp [List.mem_filter]
  refine ⟨hmem, ?_, ?_⟩
  · intro times
    induction times with
    | nil =>
      intro ps p hp _
      simpa using hp
    | cons t ts ih =>
      intro ps p hp hts
      simp only [List.foldl_cons]
      exact ih _ p ((hmem t ps p).mpr ⟨hp, hts t (by simp)⟩)
        (fun u hu => hts u (by simp [hu]))
  · intro now ps p hgt hin
    have := ((hmem now ps p).mp hin).2
    linarith

theorem projectile_expiry_window_witness :
    pEx ∈ List.foldl (fun acc t => expireStep t acc) [pEx] [1000, 2000] ∧
    pEx ∉ expireStep 2001 [pEx] :=
  ⟨projectile_expiry_window.2.1 [1000, 2000] [pEx] pEx (by simp)
     (by
       intro t ht
       fin_cases ht <;> norm_num [pEx, PROJECTILE_LIFETIME]),
   projectile_expiry_window.2.2 2001 [pEx] pEx (by norm_num [pEx, PROJECTILE_LIFETIME])⟩

end Starfox
